import Mathlib

/-!
Shallow embedding of the TempMail backend (`backend/server.py`).

Modelling conventions:
* Instants are integers (microsecond-resolution UTC timestamps).  The code
  stores ISO-8601 UTC strings whose lexicographic order agrees with the
  instant order, so `Int` comparisons model the string / datetime
  comparisons of the source.
* Every `datetime.now(timezone.utc)` call of a handler is a separate
  explicit parameter (the source reads the clock several times per
  request, and those readings need not coincide).
* The MongoDB collections are lists of documents; `find_one` is first
  match, `update_one` updates the first match, `insert_one` appends,
  `delete_one` removes the first match, `sort(..., -1)` is a sort by the
  key in descending order and `to_list(n)` takes the first `n` results.
* JWT signing/verification is the black box of the spec: a token is its
  payload record; `jwt.encode` keeps the `exp` instant as passed.
* Random identifier / address / code generation is external entropy and
  is passed in as an argument.
* Fallible handlers return `Except ApiError result` together with the
  store state after the call.
-/

namespace TempMail

/-- Absolute instants (microseconds since epoch, UTC). -/
abbrev Instant := Int

/-- Document of the `access_codes` collection. -/
structure AccessCode where
  id : Nat
  code : String
  expires_at : Instant
  used : Bool
  used_at : Option Instant
  created_at : Instant
  created_by : String
deriving Repr, DecidableEq

/-- Document of the `temp_emails` collection (a mailbox). -/
structure TempEmail where
  id : Nat
  email_address : String
  session_id : Nat
  created_at : Instant
  expires_at : Instant
deriving Repr, DecidableEq

/-- Document of the `email_messages` collection. -/
structure EmailMessage where
  id : Nat
  to_email : String
  from_email : String
  subject : String
  body : String
  received_at : Instant
  is_read : Bool
deriving Repr, DecidableEq

/-- The three MongoDB collections the modelled handlers touch. -/
structure Store where
  access_codes : List AccessCode
  temp_emails : List TempEmail
  email_messages : List EmailMessage
deriving Repr, DecidableEq

/-- The error responses the modelled handlers raise via `HTTPException`. -/
inductive ApiError where
  /-- Status 400 for an unknown access code. -/
  | invalidCode
  /-- Status 400 for an already used access code. -/
  | codeAlreadyUsed
  /-- Status 400 for an expired access code. -/
  | codeExpired
  /-- Status 404 for an unknown destination address. -/
  | emailNotFound
  /-- Status 400 for an expired destination mailbox. -/
  | emailExpired
  /-- Status 404 for an unknown message id. -/
  | messageNotFound
  /-- Status 404 for an unknown access-code id on revocation. -/
  | codeNotFound
deriving Repr, DecidableEq

instance {ε α : Type} [DecidableEq ε] [DecidableEq α] :
    DecidableEq (Except ε α) := fun a b =>
  match a, b with
  | .ok x, .ok y =>
    if h : x = y then isTrue (h ▸ rfl)
    else isFalse fun hc => h (Except.ok.inj hc)
  | .ok _, .error _ => isFalse fun hc => Except.noConfusion hc
  | .error _, .ok _ => isFalse fun hc => Except.noConfusion hc
  | .error x, .error y =>
    if h : x = y then isTrue (h ▸ rfl)
    else isFalse fun hc => h (Except.error.inj hc)

/-- A user-session JWT, identified with its payload (signing is opaque). -/
structure Token where
  sub : Nat
  email : String
  role : String
  exp : Instant
deriving Repr, DecidableEq

/-- The `create_token` helper: `expire = datetime.now(utc) + expires_delta;
to_encode.update({"exp": expire})`.  Its internal clock reading is the
explicit `now` argument. -/
def create_token (sub : Nat) (email : String) (role : String)
    (expires_delta : Int) (now : Instant) : Token :=
  { sub := sub, email := email, role := role, exp := now + expires_delta }

/-- Python `str.upper` on a character (code strings are ASCII). -/
def upperChar (c : Char) : Char := c.toUpper

/-- Python `str.strip`: drop leading and trailing whitespace. -/
def strip (cs : List Char) : List Char :=
  ((cs.dropWhile Char.isWhitespace).reverse.dropWhile Char.isWhitespace).reverse

/-- Normalization `request.code.upper().strip()` of the `verify_code` handler. -/
def normalize_code (s : String) : String :=
  ⟨strip (s.data.map upperChar)⟩

/-- Mongo `update_one`: apply `f` to the first list element satisfying `p`. -/
def updateFirst {α : Type} (p : α → Bool) (f : α → α) : List α → List α
  | [] => []
  | x :: xs => if p x then f x :: xs else x :: updateFirst p f xs

/-- The five clock readings of a `POST /verify-code` request, in program
order: the expiry check (line 177), the `used_at` stamp (line 183), the
mailbox `created_at` stamp (line 194), the `remaining_time` computation
(line 199) and the reading inside `create_token` (line 114). -/
structure RedeemClock where
  tCheck : Instant
  tUsed : Instant
  tMbox : Instant
  tRem : Instant
  tTok : Instant
deriving Repr, DecidableEq

/-- Response body of `POST /verify-code`. -/
structure VerifyCodeResponse where
  token : Token
  expires_at : Instant
  email_address : String
deriving Repr, DecidableEq

/-- The `POST /verify-code` handler.  `emailId` and `emailAddr` are the
freshly generated uuid and address for the automatic mailbox. -/
def verify_code (s : Store) (rawCode : String) (rc : RedeemClock)
    (emailId : Nat) (emailAddr : String) :
    Except ApiError VerifyCodeResponse × Store :=
  let code := normalize_code rawCode
  match s.access_codes.find? (fun c => c.code == code) with
  | none => (.error .invalidCode, s)
  | some code_doc =>
    if code_doc.used then (.error .codeAlreadyUsed, s)
    else if code_doc.expires_at < rc.tCheck then (.error .codeExpired, s)
    else
      let newCodes := updateFirst (fun c => c.code == code)
        (fun c => { c with used := true, used_at := some rc.tUsed })
        s.access_codes
      let s1 : Store := { s with access_codes := newCodes }
      let s2 : Store := { s1 with temp_emails := s1.temp_emails ++
        [{ id := emailId, email_address := emailAddr,
           session_id := code_doc.id, created_at := rc.tMbox,
           expires_at := code_doc.expires_at }] }
      let remaining_time := code_doc.expires_at - rc.tRem
      let token := create_token code_doc.id emailAddr "user"
        remaining_time rc.tTok
      (.ok { token := token, expires_at := code_doc.expires_at,
             email_address := emailAddr }, s2)

/-- Response body of `POST /email/generate`. -/
structure TempEmailResponse where
  id : Nat
  email_address : String
  created_at : Instant
  expires_at : Instant
deriving Repr, DecidableEq

/-- The `POST /email/generate` handler: the new mailbox's expiry is the
session token's `exp` claim re-derived from the verified token. -/
def generate_new_email (user : Token) (s : Store) (emailId : Nat)
    (emailAddr : String) (now : Instant) : TempEmailResponse × Store :=
  let expires_at := user.exp
  let s' : Store := { s with temp_emails := s.temp_emails ++
    [{ id := emailId, email_address := emailAddr, session_id := user.sub,
       created_at := now, expires_at := expires_at }] }
  ({ id := emailId, email_address := emailAddr, created_at := now,
     expires_at := expires_at }, s')

/-- The `GET /emails` handler: mailboxes of the session, `to_list(100)`. -/
def get_my_emails (user : Token) (s : Store) : List TempEmail :=
  (s.temp_emails.filter (fun e => e.session_id == user.sub)).take 100

/-- Descending order on `received_at` used by `sort("received_at", -1)`. -/
def recvGe (a b : EmailMessage) : Prop := b.received_at ≤ a.received_at

instance : DecidableRel recvGe := fun a b => by
  unfold recvGe; infer_instance

instance : IsTotal EmailMessage recvGe :=
  ⟨fun a b => le_total b.received_at a.received_at⟩

instance : IsTrans EmailMessage recvGe :=
  ⟨fun _ _ _ h1 h2 => le_trans h2 h1⟩

/-- The `GET /messages` handler: addresses of the session's first 100
mailboxes, then messages to those addresses sorted by `received_at`
descending, `to_list(100)`. -/
def get_messages (user : Token) (s : Store) : List EmailMessage :=
  let emails :=
    (s.temp_emails.filter (fun e => e.session_id == user.sub)).take 100
  let email_addresses := emails.map (fun e => e.email_address)
  (List.insertionSort recvGe
    (s.email_messages.filter
      (fun m => email_addresses.contains m.to_email))).take 100

/-- The `GET /messages/{message_id}` handler: 404 when absent, otherwise
set `is_read` and return the message with `is_read = true`. -/
def get_message (message_id : Nat) (user : Token) (s : Store) :
    Except ApiError EmailMessage × Store :=
  match s.email_messages.find? (fun m => m.id == message_id) with
  | none => (.error .messageNotFound, s)
  | some message =>
    let newMsgs := updateFirst (fun m => m.id == message_id)
      (fun m => { m with is_read := true }) s.email_messages
    (.ok { message with is_read := true },
      { s with email_messages := newMsgs })

/-- The `DELETE /messages/{message_id}` handler: `delete_one` by id, 404
when nothing was deleted. -/
def delete_message (message_id : Nat) (user : Token) (s : Store) :
    Except ApiError Unit × Store :=
  if s.email_messages.any (fun m => m.id == message_id) then
    (.ok (), { s with email_messages :=
      s.email_messages.eraseP (fun m => m.id == message_id) })
  else (.error .messageNotFound, s)

/-- Request body of `POST /mock-email`. -/
structure MockEmailRequest where
  to_email : String
  from_email : String
  subject : String
  body : String
deriving Repr, DecidableEq

/-- The `POST /mock-email` handler.  `tCheck` is the clock reading of the
expiry check (line 392), `tRecv` the `received_at` stamp (line 403). -/
def receive_mock_email (req : MockEmailRequest) (s : Store)
    (messageId : Nat) (tCheck tRecv : Instant) :
    Except ApiError Nat × Store :=
  match s.temp_emails.find? (fun e => e.email_address == req.to_email) with
  | none => (.error .emailNotFound, s)
  | some email_doc =>
    if email_doc.expires_at < tCheck then (.error .emailExpired, s)
    else
      (.ok messageId, { s with email_messages := s.email_messages ++
        [{ id := messageId, to_email := req.to_email,
           from_email := req.from_email, subject := req.subject,
           body := req.body, received_at := tRecv, is_read := false }] })

/-- Response body of `GET /admin/stats`.  `active_codes` is a Python
integer difference, so it lives in `Int`. -/
structure StatsResponse where
  total_codes : Nat
  active_codes : Int
  used_codes : Nat
  expired_codes : Nat
  total_emails : Nat
  total_messages : Nat
deriving Repr, DecidableEq

/-- The `GET /admin/stats` handler; `now` is its single clock reading. -/
def get_stats (s : Store) (now : Instant) : StatsResponse :=
  let total_codes := s.access_codes.length
  let used_codes := (s.access_codes.filter (fun c => c.used)).length
  let expired_codes := (s.access_codes.filter
    (fun c => !c.used && decide (c.expires_at < now))).length
  { total_codes := total_codes,
    active_codes := (total_codes : Int) - used_codes - expired_codes,
    used_codes := used_codes,
    expired_codes := expired_codes,
    total_emails := s.temp_emails.length,
    total_messages := s.email_messages.length }

/-- Descending order on `created_at` used by `sort("created_at", -1)`. -/
def createdGe (a b : AccessCode) : Prop := b.created_at ≤ a.created_at

instance : DecidableRel createdGe := fun a b => by
  unfold createdGe; infer_instance

/-- The `POST /admin/generate-code` handler: a fresh code document with
`expires_at = now + expiry_hours` (hours in microseconds). -/
def generate_access_code (s : Store) (codeId : Nat) (code : String)
    (expiry_hours : Int) (now : Instant) (created_by : String) :
    AccessCode × Store :=
  let doc : AccessCode :=
    { id := codeId, code := code,
      expires_at := now + expiry_hours * 3600000000,
      used := false, used_at := none, created_at := now,
      created_by := created_by }
  (doc, { s with access_codes := s.access_codes ++ [doc] })

/-- The `GET /admin/codes` handler: all codes sorted by `created_at`
descending, `to_list(1000)`. -/
def get_all_codes (s : Store) : List AccessCode :=
  (List.insertionSort createdGe s.access_codes).take 1000

/-- The `DELETE /admin/codes/{code_id}` handler: hard delete by id. -/
def revoke_code (code_id : Nat) (s : Store) : Except ApiError Unit × Store :=
  if s.access_codes.any (fun c => c.id == code_id) then
    (.ok (), { s with access_codes :=
      s.access_codes.eraseP (fun c => c.id == code_id) })
  else (.error .codeNotFound, s)

/-! ### Helper lemmas about the list-level storage primitives -/

theorem mem_updateFirst {α : Type} {p : α → Bool} {f : α → α} {l : List α}
    {y : α} (h : y ∈ updateFirst p f l) :
    y ∈ l ∨ ∃ x, x ∈ l ∧ p x = true ∧ y = f x := by
  induction l with
  | nil => simpa [updateFirst] using h
  | cons a as ih =>
    by_cases ha : p a
    · simp only [updateFirst, if_pos ha] at h
      rcases List.mem_cons.mp h with h | h
      · exact Or.inr ⟨a, List.mem_cons_self a as, ha, h⟩
      · exact Or.inl (List.mem_cons_of_mem _ h)
    · simp only [updateFirst, if_neg ha] at h
      rcases List.mem_cons.mp h with h | h
      · exact Or.inl (by simp [h])
      · rcases ih h with h' | ⟨x, hx, hpx, hyx⟩
        · exact Or.inl (List.mem_cons_of_mem _ h')
        · exact Or.inr ⟨x, List.mem_cons_of_mem _ hx, hpx, hyx⟩

theorem find?_updateFirst {α : Type} {p : α → Bool} {f : α → α} (l : List α)
    (hpf : ∀ a, p (f a) = p a) :
    (updateFirst p f l).find? p = (l.find? p).map f := by
  induction l with
  | nil => rfl
  | cons a as ih =>
    by_cases ha : p a
    · simp only [updateFirst, if_pos ha]
      rw [List.find?_cons_of_pos _ ((hpf a).trans ha),
        List.find?_cons_of_pos _ ha, Option.map_some']
    · simp only [updateFirst, if_neg ha]
      rw [List.find?_cons_of_neg _ ha, List.find?_cons_of_neg _ ha, ih]

theorem updateFirst_updateFirst {α : Type} {p : α → Bool} {f : α → α}
    (l : List α) (hpf : ∀ a, p (f a) = p a) (hff : ∀ a, f (f a) = f a) :
    updateFirst p f (updateFirst p f l) = updateFirst p f l := by
  induction l with
  | nil => rfl
  | cons a as ih =>
    by_cases ha : p a
    · simp only [updateFirst, if_pos ha, if_pos ((hpf a).trans ha), hff a]
    · simp only [updateFirst, if_neg ha, List.cons.injEq, true_and, ih]

theorem length_filter_add_length_filter_le {α : Type} (p q : α → Bool)
    (l : List α) (hd : ∀ a, p a = true → q a = false) :
    (l.filter p).length + (l.filter q).length ≤ l.length := by
  induction l with
  | nil => simp
  | cons a as ih =>
    by_cases hp : p a
    · simp only [List.filter_cons, if_pos hp, hd a hp, if_neg Bool.false_ne_true,
        List.length_cons]
      omega
    · by_cases hq : q a <;>
        simp only [List.filter_cons, hp, hq, if_pos, if_neg, if_true, if_false,
          Bool.false_eq_true, List.length_cons] <;> omega

theorem any_of_find?_eq_some {α : Type} {p : α → Bool} {l : List α} {a : α}
    (h : l.find? p = some a) : l.any p = true := by
  rw [List.any_eq_true]
  exact ⟨a, List.mem_of_find?_eq_some h, List.find?_some h⟩

/-! ### C8 — stats partition invariant -/

/-- C8: `get_stats` returns `used_codes` counting the codes with
`used = true`, `expired_codes` counting the codes with `used = false` and
`expires_at < now`, and the counts always satisfy
`active_codes + used_codes + expired_codes = total_codes` with
`active_codes ≥ 0`. -/
theorem stats_partition (s : Store) (now : Instant) :
    (get_stats s now).used_codes =
      (s.access_codes.filter (fun c => c.used)).length ∧
    (get_stats s now).expired_codes =
      (s.access_codes.filter
        (fun c => !c.used && decide (c.expires_at < now))).length ∧
    (get_stats s now).active_codes + ((get_stats s now).used_codes : Int) +
      ((get_stats s now).expired_codes : Int) =
      ((get_stats s now).total_codes : Int) ∧
    0 ≤ (get_stats s now).active_codes := by
  refine ⟨rfl, rfl, by simp [get_stats]; ring, ?_⟩
  have hle := length_filter_add_length_filter_le
    (fun c : AccessCode => c.used)
    (fun c : AccessCode => !c.used && decide (c.expires_at < now))
    s.access_codes (fun a ha => by simp [ha])
  simp only [get_stats, sub_nonneg]
  omega

/-! ### C9 — message get/delete ignore the requesting session -/

/-- C9: `get_message` and `delete_message` produce the same outcome for
any two authenticated sessions: the handlers never consult the session
payload, succeed on any stored message id regardless of which session
owns the destination mailbox, and fail with `messageNotFound` exactly
when the id is absent. -/
theorem message_access_ignores_session (s : Store) (mid : Nat)
    (u1 u2 : Token) :
    get_message mid u1 s = get_message mid u2 s ∧
    delete_message mid u1 s = delete_message mid u2 s ∧
    (s.email_messages.find? (fun m => m.id == mid) = none →
      (get_message mid u1 s).1 = .error .messageNotFound ∧
      (delete_message mid u1 s).1 = .error .messageNotFound) ∧
    (∀ m, s.email_messages.find? (fun m' => m'.id == mid) = some m →
      (get_message mid u1 s).1 = .ok { m with is_read := true } ∧
      (delete_message mid u1 s).1 = .ok ()) := by
  refine ⟨rfl, rfl, fun hnone => ?_, fun m hm => ?_⟩
  · constructor
    · simp [get_message, hnone]
    · have : s.email_messages.any (fun m => m.id == mid) = false := by
        rw [Bool.eq_false_iff]
        intro hany
        rcases List.any_eq_true.mp hany with ⟨x, hx, hpx⟩
        rcases List.find?_eq_none.mp hnone x hx hpx
      simp [delete_message, this]
  · constructor
    · simp [get_message, hm]
    · simp [delete_message, any_of_find?_eq_some hm]

/-- Witness for C9 at a concrete store, message and two sessions. -/
def w9msg : EmailMessage :=
  { id := 3, to_email := "m1@tempmail.local", from_email := "x@example.com",
    subject := "hi", body := "text", received_at := 10, is_read := false }

/-- Concrete store for the C9 witness. -/
def w9store : Store :=
  { access_codes := [], temp_emails := [], email_messages := [w9msg] }

theorem message_access_ignores_session_witness :
    (get_message 3 { sub := 1, email := "a", role := "user", exp := 50 } w9store =
      get_message 3 { sub := 2, email := "b", role := "user", exp := 60 } w9store) ∧
    (get_message 3 { sub := 1, email := "a", role := "user", exp := 50 } w9store).1 =
      .ok { w9msg with is_read := true } ∧
    (delete_message 3 { sub := 1, email := "a", role := "user", exp := 50 } w9store).1 =
      .ok () ∧
    (get_message 99 { sub := 1, email := "a", role := "user", exp := 50 } w9store).1 =
      .error .messageNotFound := by
  have h := message_access_ignores_session w9store 3
    { sub := 1, email := "a", role := "user", exp := 50 }
    { sub := 2, email := "b", role := "user", exp := 60 }
  have h' := message_access_ignores_session w9store 99
    { sub := 1, email := "a", role := "user", exp := 50 }
    { sub := 2, email := "b", role := "user", exp := 60 }
  refine ⟨h.1, (h.2.2.2 w9msg (by decide)).1, (h.2.2.2 w9msg (by decide)).2,
    (h'.2.2.1 (by decide)).1⟩

/-! ### C10 — listing endpoints silently truncate -/

/-- A session owning 101 mailboxes, one past the `/emails` cap. -/
def c10big : Store :=
  { access_codes := [],
    temp_emails := (List.range 101).map (fun i =>
      { id := i, email_address := "box@tempmail.local", session_id := 1,
        created_at := 0, expires_at := 1000 }),
    email_messages := [] }

/-- The session owning the 101 mailboxes of `c10big`. -/
def c10user : Token :=
  { sub := 1, email := "box@tempmail.local", role := "user", exp := 1000 }

/-- C10: `GET /emails` returns at most 100 mailboxes, `GET /messages`
consults only the first 100 mailboxes of the session and returns at most
100 messages, `GET /admin/codes` returns at most 1000 codes, all results
are drawn from the store without error, and a session with 101 mailboxes
gets only 100 of them back. -/
theorem listing_caps (u : Token) (s : Store) :
    (get_my_emails u s).length ≤ 100 ∧
    (get_messages u s).length ≤ 100 ∧
    (get_all_codes s).length ≤ 1000 ∧
    (∀ e ∈ get_my_emails u s, e ∈ s.temp_emails ∧ e.session_id = u.sub) ∧
    (∀ m ∈ get_messages u s, m.to_email ∈
      ((s.temp_emails.filter (fun e => e.session_id == u.sub)).take 100).map
        (fun e => e.email_address)) ∧
    (∀ c ∈ get_all_codes s, c ∈ s.access_codes) ∧
    ((get_my_emails c10user c10big).length = 100 ∧
      (c10big.temp_emails.filter
        (fun e => e.session_id == c10user.sub)).length = 101) := by
  refine ⟨List.length_take_le _ _, List.length_take_le _ _,
    List.length_take_le _ _, fun e he => ?_, fun m hm => ?_, fun c hc => ?_,
    by decide, by decide⟩
  · have he' : e ∈ s.temp_emails.filter (fun e => e.session_id == u.sub) :=
      (List.take_sublist _ _).mem he
    have := List.mem_filter.mp he'
    exact ⟨this.1, by simpa using this.2⟩
  · have hm' := (List.take_sublist _ _).mem hm
    have hm'' := (List.perm_insertionSort recvGe _).mem_iff.mp hm'
    have := (List.mem_filter.mp hm'').2
    simpa using this
  · have hc' := (List.take_sublist _ _).mem hc
    exact (List.perm_insertionSort createdGe _).mem_iff.mp hc'

/-- The first of the 101 mailboxes of `c10big`. -/
def c10box0 : TempEmail :=
  { id := 0, email_address := "box@tempmail.local", session_id := 1,
    created_at := 0, expires_at := 1000 }

theorem listing_caps_witness :
    (get_my_emails c10user c10big).length ≤ 100 ∧
    c10box0 ∈ c10big.temp_emails ∧
    c10box0.session_id = c10user.sub := by
  have h := listing_caps c10user c10big
  exact ⟨h.1, h.2.2.2.1 c10box0 (by decide)⟩

/-! ### C5 — inbound delivery validation -/

/-- C5: `POST /mock-email` fails `NotFound` when no mailbox has the
destination address, fails `Expired` (with the mailbox still stored and
no message persisted) when `now > mailbox.expires_at`, and otherwise
persists the message with `is_read = false` and returns its id. -/
theorem deliver_requires_live_mailbox (req : MockEmailRequest) (s : Store)
    (mid : Nat) (t1 t2 : Instant) :
    ((∀ e ∈ s.temp_emails, e.email_address ≠ req.to_email) →
      receive_mock_email req s mid t1 t2 = (.error .emailNotFound, s)) ∧
    (∀ e, s.temp_emails.find?
        (fun x => x.email_address == req.to_email) = some e →
      e.expires_at < t1 →
      e ∈ s.temp_emails ∧
      receive_mock_email req s mid t1 t2 = (.error .emailExpired, s)) ∧
    (∀ e, s.temp_emails.find?
        (fun x => x.email_address == req.to_email) = some e →
      ¬ e.expires_at < t1 →
      (receive_mock_email req s mid t1 t2).1 = .ok mid ∧
      (receive_mock_email req s mid t1 t2).2.email_messages =
        s.email_messages ++
          [{ id := mid, to_email := req.to_email,
             from_email := req.from_email, subject := req.subject,
             body := req.body, received_at := t2, is_read := false }] ∧
      (receive_mock_email req s mid t1 t2).2.temp_emails = s.temp_emails) := by
  refine ⟨fun hnone => ?_, fun e hf hexp => ?_, fun e hf hlive => ?_⟩
  · have : s.temp_emails.find?
        (fun x => x.email_address == req.to_email) = none := by
      rw [List.find?_eq_none]
      intro x hx
      simpa using hnone x hx
    simp [receive_mock_email, this]
  · exact ⟨List.mem_of_find?_eq_some hf,
      by simp [receive_mock_email, hf, hexp]⟩
  · refine ⟨?_, ?_, ?_⟩ <;> simp [receive_mock_email, hf, hlive]

/-- Mailbox for the C5 witness. -/
def w5box : TempEmail :=
  { id := 1, email_address := "w5@tempmail.local", session_id := 1,
    created_at := 0, expires_at := 100 }

/-- Concrete store for the C5 witness. -/
def w5store : Store :=
  { access_codes := [], temp_emails := [w5box], email_messages := [] }

/-- Delivery request matching the C5 witness mailbox. -/
def w5req : MockEmailRequest :=
  { to_email := "w5@tempmail.local", from_email := "f@example.com",
    subject := "s", body := "b" }

/-- Delivery request to an unknown address. -/
def w5reqMissing : MockEmailRequest :=
  { w5req with to_email := "nosuch@tempmail.local" }

theorem deliver_requires_live_mailbox_witness :
    receive_mock_email w5reqMissing w5store 9 50 50 =
      (.error .emailNotFound, w5store) ∧
    receive_mock_email w5req w5store 9 150 150 =
      (.error .emailExpired, w5store) ∧
    (receive_mock_email w5req w5store 9 50 50).1 = .ok 9 ∧
    (receive_mock_email w5req w5store 9 50 50).2.email_messages =
      [{ id := 9, to_email := "w5@tempmail.local",
         from_email := "f@example.com", subject := "s", body := "b",
         received_at := 50, is_read := false }] := by
  have h1 := deliver_requires_live_mailbox w5reqMissing w5store 9 50 50
  have h2 := deliver_requires_live_mailbox w5req w5store 9 150 150
  have h3 := deliver_requires_live_mailbox w5req w5store 9 50 50
  refine ⟨h1.1 (by decide), (h2.2.1 w5box (by decide) (by decide)).2,
    (h3.2.2 w5box (by decide) (by decide)).1, ?_⟩
  have := (h3.2.2 w5box (by decide) (by decide)).2.1
  simpa [w5store] using this

/-! ### C7 — read flag flips on first fetch, idempotent thereafter -/

/-- C7: fetching an existing message returns it with `is_read = true`,
stores it back with `is_read = true`, and a repeated fetch returns the
same message and leaves the store exactly as after the first fetch. -/
theorem message_read_idempotent (mid : Nat) (u : Token) (s : Store) :
    (s.email_messages.find? (fun m => m.id == mid) = none →
      get_message mid u s = (.error .messageNotFound, s)) ∧
    (∀ m, s.email_messages.find? (fun m' => m'.id == mid) = some m →
      (get_message mid u s).1 = .ok { m with is_read := true } ∧
      (get_message mid u s).2.email_messages.find?
        (fun m' => m'.id == mid) = some { m with is_read := true } ∧
      get_message mid u (get_message mid u s).2 =
        (.ok { m with is_read := true }, (get_message mid u s).2)) := by
  have hpf : ∀ a : EmailMessage,
      ((({ a with is_read := true } : EmailMessage).id == mid)) =
        (a.id == mid) := fun a => rfl
  refine ⟨fun hnone => by simp [get_message, hnone], fun m hm => ?_⟩
  have hfind1 : (get_message mid u s).2.email_messages.find?
      (fun m' => m'.id == mid) = some { m with is_read := true } := by
    simp only [get_message, hm]
    rw [find?_updateFirst _ hpf, hm, Option.map_some']
  refine ⟨by simp [get_message, hm], hfind1, ?_⟩
  have hidem : updateFirst (fun m' : EmailMessage => m'.id == mid)
      (fun m' => { m' with is_read := true })
      ((get_message mid u s).2.email_messages) =
      (get_message mid u s).2.email_messages := by
    simp only [get_message, hm]
    exact updateFirst_updateFirst _ hpf (fun a => rfl)
  simp only [get_message, hm] at hfind1 hidem ⊢
  rw [hfind1, hidem]

/-- Message for the C7 witness. -/
def w7msg : EmailMessage :=
  { id := 4, to_email := "w7@tempmail.local", from_email := "y@example.com",
    subject := "w7", body := "text", received_at := 11, is_read := false }

/-- Concrete store for the C7 witness. -/
def w7store : Store :=
  { access_codes := [], temp_emails := [], email_messages := [w7msg] }

/-- Session used by the C7 witness. -/
def w7user : Token :=
  { sub := 1, email := "w7@tempmail.local", role := "user", exp := 50 }

theorem message_read_idempotent_witness :
    (get_message 4 w7user w7store).1 = .ok { w7msg with is_read := true } ∧
    get_message 4 w7user (get_message 4 w7user w7store).2 =
      (.ok { w7msg with is_read := true }, (get_message 4 w7user w7store).2) ∧
    get_message 99 w7user w7store = (.error .messageNotFound, w7store) := by
  have h := message_read_idempotent 4 w7user w7store
  have h' := message_read_idempotent 99 w7user w7store
  exact ⟨(h.2 w7msg (by decide)).1, (h.2 w7msg (by decide)).2.2,
    h'.1 (by decide)⟩

/-! ### Case lemmas for the redemption handler -/

theorem verify_code_of_find_none {s : Store} {raw : String}
    {rc : RedeemClock} {eid : Nat} {ea : String}
    (hf : s.access_codes.find? (fun c => c.code == normalize_code raw) = none) :
    verify_code s raw rc eid ea = (.error .invalidCode, s) := by
  simp [verify_code, hf]

theorem verify_code_of_used {s : Store} {raw : String} {rc : RedeemClock}
    {eid : Nat} {ea : String} {cd : AccessCode}
    (hf : s.access_codes.find? (fun c => c.code == normalize_code raw) = some cd)
    (hu : cd.used = true) :
    verify_code s raw rc eid ea = (.error .codeAlreadyUsed, s) := by
  simp [verify_code, hf, hu]

theorem verify_code_of_expired {s : Store} {raw : String} {rc : RedeemClock}
    {eid : Nat} {ea : String} {cd : AccessCode}
    (hf : s.access_codes.find? (fun c => c.code == normalize_code raw) = some cd)
    (hu : cd.used = false) (he : cd.expires_at < rc.tCheck) :
    verify_code s raw rc eid ea = (.error .codeExpired, s) := by
  simp [verify_code, hf, hu, he]

theorem verify_code_of_live {s : Store} {raw : String} {rc : RedeemClock}
    {eid : Nat} {ea : String} {cd : AccessCode}
    (hf : s.access_codes.find? (fun c => c.code == normalize_code raw) = some cd)
    (hu : cd.used = false) (he : ¬ cd.expires_at < rc.tCheck) :
    verify_code s raw rc eid ea =
      (.ok { token := { sub := cd.id, email := ea, role := "user",
                        exp := rc.tTok + (cd.expires_at - rc.tRem) },
             expires_at := cd.expires_at, email_address := ea },
       { s with
         access_codes := updateFirst
           (fun c => c.code == normalize_code raw)
           (fun c => { c with used := true, used_at := some rc.tUsed })
           s.access_codes,
         temp_emails := s.temp_emails ++
           [{ id := eid, email_address := ea, session_id := cd.id,
              created_at := rc.tMbox, expires_at := cd.expires_at }] }) := by
  simp [verify_code, hf, hu, he, create_token]

theorem verify_code_ok_inversion {s : Store} {raw : String}
    {rc : RedeemClock} {eid : Nat} {ea : String}
    {r : VerifyCodeResponse} {s' : Store}
    (h : verify_code s raw rc eid ea = (.ok r, s')) :
    ∃ cd, s.access_codes.find?
        (fun c => c.code == normalize_code raw) = some cd ∧
      cd.used = false ∧ ¬ cd.expires_at < rc.tCheck ∧
      r = { token := { sub := cd.id, email := ea, role := "user",
                       exp := rc.tTok + (cd.expires_at - rc.tRem) },
            expires_at := cd.expires_at, email_address := ea } ∧
      s' = { s with
        access_codes := updateFirst
          (fun c => c.code == normalize_code raw)
          (fun c => { c with used := true, used_at := some rc.tUsed })
          s.access_codes,
        temp_emails := s.temp_emails ++
          [{ id := eid, email_address := ea, session_id := cd.id,
             created_at := rc.tMbox, expires_at := cd.expires_at }] } := by
  cases hf : s.access_codes.find? (fun c => c.code == normalize_code raw) with
  | none => rw [verify_code_of_find_none hf] at h; simp at h
  | some cd =>
    by_cases hu : cd.used
    · rw [verify_code_of_used hf hu] at h; simp at h
    · have hu' : cd.used = false := by simpa using hu
      by_cases he : cd.expires_at < rc.tCheck
      · rw [verify_code_of_expired hf hu' he] at h; simp at h
      · rw [verify_code_of_live hf hu' he] at h
        simp only [Prod.mk.injEq, Except.ok.injEq] at h
        exact ⟨cd, rfl, hu', he, h.1.symm, h.2.symm⟩

theorem verify_code_error_state {s : Store} {raw : String}
    {rc : RedeemClock} {eid : Nat} {ea : String} {e : ApiError} {s' : Store}
    (h : verify_code s raw rc eid ea = (.error e, s')) : s' = s := by
  cases hf : s.access_codes.find? (fun c => c.code == normalize_code raw) with
  | none => rw [verify_code_of_find_none hf] at h; exact (Prod.mk.injEq _ _ _ _ ▸ h).2.symm
  | some cd =>
    by_cases hu : cd.used
    · rw [verify_code_of_used hf hu] at h
      exact (Prod.mk.injEq _ _ _ _ ▸ h).2.symm
    · have hu' : cd.used = false := by simpa using hu
      by_cases he : cd.expires_at < rc.tCheck
      · rw [verify_code_of_expired hf hu' he] at h
        exact (Prod.mk.injEq _ _ _ _ ▸ h).2.symm
      · rw [verify_code_of_live hf hu' he] at h
        simp at h

/-! ### C1 — the token expiry is not an exact copy of the code expiry -/

/-- Access code used by the clock-drift instances of C1 and C4. -/
def driftCode : AccessCode :=
  { id := 1, code := "ABCD2345", expires_at := 100, used := false,
    used_at := none, created_at := 0, created_by := "admin@botsmith.com" }

/-- Store holding only `driftCode`. -/
def driftStore : Store :=
  { access_codes := [driftCode], temp_emails := [], email_messages := [] }

/-- Redemption clock where one microsecond elapses between the
`remaining_time` computation (line 199, reading 5) and the clock reading
inside `create_token` (line 114, reading 6). -/
def driftClock : RedeemClock :=
  { tCheck := 5, tUsed := 5, tMbox := 5, tRem := 5, tTok := 6 }

/-- C1: the handler computes the session expiry as
`now₂ + (expires_at − now₁)` from two distinct clock readings, not as an
exact copy of the code's `expires_at`: with the code expiring at instant
100 and the clock advancing from 5 to 6 between the two readings, the
issued token carries `exp = 101 ≠ 100`, so the session outlives its
code's expiry. -/
theorem token_exp_not_exact_copy :
    (verify_code driftStore "ABCD2345" driftClock 7 "a@tempmail.local").1 =
      .ok { token := { sub := 1, email := "a@tempmail.local",
                       role := "user", exp := 101 },
            expires_at := 100, email_address := "a@tempmail.local" } ∧
    driftCode.expires_at = 100 ∧
    driftClock.tRem = 5 ∧ driftClock.tTok = 6 ∧
    (101 : Instant) ≠ 100 ∧ (100 : Instant) < 101 := by decide

/-! ### C4 — mailbox expiry versus session expiry -/

/-- Counterexample for C4: the redemption above also creates the
automatic mailbox; its `expires_at` is the code's expiry 100 while the
session token's `exp` claim is 101, so this session mailbox does not
carry the session's `exp`. -/
theorem redemption_mailbox_exp_mismatch :
    (verify_code driftStore "ABCD2345" driftClock 7
      "a@tempmail.local").2.temp_emails =
      [{ id := 7, email_address := "a@tempmail.local", session_id := 1,
         created_at := 5, expires_at := 100 }] ∧
    (verify_code driftStore "ABCD2345" driftClock 7
      "a@tempmail.local").1 =
      .ok { token := { sub := 1, email := "a@tempmail.local",
                       role := "user", exp := 101 },
            expires_at := 100, email_address := "a@tempmail.local" } ∧
    (100 : Instant) ≠ 101 := by decide

/-- C4 amended: every mailbox minted by `POST /email/generate` carries
exactly the session token's `exp` claim, independent of creation time;
the mailbox created automatically at redemption carries the code's
`expires_at` (the response's `expires_at`), which equals the session
token's `exp` only when the redemption's two final clock readings
coincide. -/
theorem mailbox_expiry_amended :
    (∀ (user : Token) (s : Store) (eid : Nat) (ea : String) (now : Instant),
      (generate_new_email user s eid ea now).1.expires_at = user.exp ∧
      ∀ e ∈ (generate_new_email user s eid ea now).2.temp_emails,
        e ∈ s.temp_emails ∨ e.expires_at = user.exp) ∧
    (∀ (s : Store) (raw : String) (rc : RedeemClock) (eid : Nat)
        (ea : String) (r : VerifyCodeResponse) (s' : Store),
      verify_code s raw rc eid ea = (.ok r, s') →
      (∀ e ∈ s'.temp_emails, e ∈ s.temp_emails ∨
        e.expires_at = r.expires_at) ∧
      (rc.tRem = rc.tTok → r.token.exp = r.expires_at)) := by
  constructor
  · intro user s eid ea now
    refine ⟨rfl, fun e he => ?_⟩
    simp only [generate_new_email, List.mem_append, List.mem_singleton] at he
    rcases he with he | he
    · exact Or.inl he
    · exact Or.inr (by rw [he])
  · intro s raw rc eid ea r s' h
    obtain ⟨cd, _, _, _, hr, hs⟩ := verify_code_ok_inversion h
    constructor
    · intro e he
      rw [hs] at he
      simp only [List.mem_append, List.mem_singleton] at he
      rcases he with he | he
      · exact Or.inl he
      · exact Or.inr (by rw [he, hr])
    · intro heq
      rw [hr]
      simp [heq]

/-- Clock where the two final redemption readings coincide, for the C4
witness. -/
def noDriftClock : RedeemClock :=
  { tCheck := 5, tUsed := 5, tMbox := 5, tRem := 5, tTok := 5 }

/-- Session token used by the C4 witness. -/
def w4user : Token :=
  { sub := 1, email := "a@tempmail.local", role := "user", exp := 100 }

/-- Redemption response expected by the C4 witness. -/
def w4resp : VerifyCodeResponse :=
  { token := w4user, expires_at := 100,
    email_address := "a@tempmail.local" }

/-- The mailbox created by the no-drift redemption of the C4 witness. -/
def w4mbox : TempEmail :=
  { id := 7, email_address := "a@tempmail.local", session_id := 1,
    created_at := 5, expires_at := 100 }

theorem mailbox_expiry_amended_witness :
    (generate_new_email w4user driftStore 8 "b@tempmail.local"
      20).1.expires_at = 100 ∧
    (w4mbox ∈ driftStore.temp_emails ∨
      w4mbox.expires_at = w4resp.expires_at) ∧
    w4resp.token.exp = w4resp.expires_at ∧
    (verify_code driftStore "ABCD2345" noDriftClock 7
      "a@tempmail.local").1 = .ok w4resp := by
  have h1 := mailbox_expiry_amended.1 w4user driftStore 8
    "b@tempmail.local" 20
  have h2 := mailbox_expiry_amended.2 driftStore "ABCD2345" noDriftClock 7
    "a@tempmail.local" w4resp
    (verify_code driftStore "ABCD2345" noDriftClock 7
      "a@tempmail.local").2 (by decide)
  exact ⟨h1.1, h2.1 w4mbox (by decide), h2.2 (by decide), by decide⟩

/-! ### C2 — at-most-one redemption over sequential operation -/

/-- One API operation of the modelled surface, with its externally
supplied clock readings and fresh identifiers. -/
inductive Op where
  | redeem (rawCode : String) (rc : RedeemClock) (emailId : Nat)
      (emailAddr : String)
  | genEmail (user : Token) (emailId : Nat) (emailAddr : String)
      (now : Instant)
  | listEmails (user : Token)
  | listMessages (user : Token)
  | readMessage (message_id : Nat) (user : Token)
  | dropMessage (message_id : Nat) (user : Token)
  | mockEmail (req : MockEmailRequest) (messageId : Nat)
      (tCheck tRecv : Instant)
  | genCode (codeId : Nat) (code : String) (expiry_hours : Int)
      (now : Instant) (created_by : String)
  | listCodes
  | revoke (code_id : Nat)
  | stats (now : Instant)
deriving Repr

/-- State transition of one operation (read-only operations leave the
store unchanged). -/
def applyOp (s : Store) : Op → Store
  | .redeem raw rc eid ea => (verify_code s raw rc eid ea).2
  | .genEmail u eid ea now => (generate_new_email u s eid ea now).2
  | .listEmails _ => s
  | .listMessages _ => s
  | .readMessage mid u => (get_message mid u s).2
  | .dropMessage mid u => (delete_message mid u s).2
  | .mockEmail req mid t1 t2 => (receive_mock_email req s mid t1 t2).2
  | .genCode cid c h now creator => (generate_access_code s cid c h now creator).2
  | .listCodes => s
  | .revoke cid => (revoke_code cid s).2
  | .stats _ => s

/-- Identifier freshness assumption for code generation (the source
draws a fresh uuid4 for every new code document). -/
def freshFor (op : Op) (s : Store) : Prop :=
  match op with
  | .genCode codeId _ _ _ _ => ∀ cd ∈ s.access_codes, cd.id ≠ codeId
  | _ => True

/-- Whether a redemption response is a success. -/
def isOk : Except ApiError VerifyCodeResponse → Bool
  | .ok _ => true
  | .error _ => false

/-- A sequence of `POST /verify-code` calls for the same raw code,
applied in order; returns the responses and the final store. -/
def runRedeems (s : Store) (raw : String) :
    List (RedeemClock × Nat × String) →
      List (Except ApiError VerifyCodeResponse) × Store
  | [] => ([], s)
  | (rc, eid, ea) :: rest =>
    let r := verify_code s raw rc eid ea
    let rest' := runRedeems r.2 raw rest
    (r.1 :: rest'.1, rest'.2)

theorem access_codes_applyOp_nonredeem (s : Store) (op : Op)
    (hop : ∀ raw rc eid ea, op ≠ .redeem raw rc eid ea)
    (hop' : ∀ cid c h now creator, op ≠ .genCode cid c h now creator)
    (hop'' : ∀ cid, op ≠ .revoke cid) :
    (applyOp s op).access_codes = s.access_codes := by
  cases op with
  | redeem raw rc eid ea => exact absurd rfl (hop raw rc eid ea)
  | genEmail u eid ea now => rfl
  | listEmails _ => rfl
  | listMessages _ => rfl
  | readMessage mid u =>
    simp only [applyOp, get_message]
    cases s.email_messages.find? (fun m => m.id == mid) <;> rfl
  | dropMessage mid u =>
    simp only [applyOp, delete_message]
    by_cases hany : s.email_messages.any (fun m => m.id == mid) <;>
      simp [hany]
  | mockEmail req mid t1 t2 =>
    simp only [applyOp, receive_mock_email]
    cases s.temp_emails.find?
        (fun e => e.email_address == req.to_email) with
    | none => rfl
    | some e => by_cases he : e.expires_at < t1 <;> simp [he]
  | genCode cid c h now creator => exact absurd rfl (hop' cid c h now creator)
  | listCodes => rfl
  | revoke cid => exact absurd rfl (hop'' cid)
  | stats now => rfl

theorem used_monotone (s : Store) (op : Op) (hfresh : freshFor op s)
    (hids : (s.access_codes.map AccessCode.id).Nodup) :
    ∀ cd ∈ s.access_codes, cd.used = true →
      ∀ cd' ∈ (applyOp s op).access_codes, cd'.id = cd.id →
        cd'.used = true := by
  intro cd hcd hused cd' hcd' hid
  have same : cd' ∈ s.access_codes → cd'.used = true := by
    intro hmem
    have : cd' = cd := List.inj_on_of_nodup_map hids hmem hcd hid
    rw [this]; exact hused
  cases op with
  | redeem raw rc eid ea =>
    rcases hv : verify_code s raw rc eid ea with ⟨out, s1⟩
    cases out with
    | error e =>
      have hs1 : s1 = s := verify_code_error_state hv
      simp only [applyOp, hv] at hcd'
      rw [hs1] at hcd'
      exact same hcd'
    | ok r =>
      obtain ⟨c0, _, _, _, _, hs⟩ := verify_code_ok_inversion hv
      simp only [applyOp, hv] at hcd'
      rw [hs] at hcd'
      rcases mem_updateFirst hcd' with hmem | ⟨x, _, _, hyx⟩
      · exact same hmem
      · rw [hyx]
  | genEmail u eid ea now => exact same hcd'
  | listEmails _ => exact same hcd'
  | listMessages _ => exact same hcd'
  | readMessage mid u =>
    rw [access_codes_applyOp_nonredeem s _ (by intros; simp)
      (by intros; simp) (by intros; simp)] at hcd'
    exact same hcd'
  | dropMessage mid u =>
    rw [access_codes_applyOp_nonredeem s _ (by intros; simp)
      (by intros; simp) (by intros; simp)] at hcd'
    exact same hcd'
  | mockEmail req mid t1 t2 =>
    rw [access_codes_applyOp_nonredeem s _ (by intros; simp)
      (by intros; simp) (by intros; simp)] at hcd'
    exact same hcd'
  | genCode cid c h now creator =>
    simp only [applyOp, generate_access_code, List.mem_append,
      List.mem_singleton] at hcd'
    rcases hcd' with hmem | hnew
    · exact same hmem
    · exfalso
      have : cd.id ≠ cid := hfresh cd hcd
      apply this
      rw [← hid, hnew]
  | listCodes => exact same hcd'
  | revoke cid =>
    simp only [applyOp, revoke_code] at hcd'
    by_cases hany : s.access_codes.any (fun c => c.id == cid)
    · simp only [hany, if_true] at hcd'
      exact same ((List.eraseP_sublist _).mem hcd')
    · simp only [hany] at hcd'
      exact same (by simpa using hcd')
  | stats now => exact same hcd'

theorem runRedeems_all_used (s : Store) (raw : String) {cd : AccessCode}
    (hf : s.access_codes.find?
      (fun c => c.code == normalize_code raw) = some cd)
    (hused : cd.used = true) :
    ∀ reqs, runRedeems s raw reqs =
      (reqs.map (fun _ => .error .codeAlreadyUsed), s) := by
  intro reqs
  induction reqs with
  | nil => rfl
  | cons req rest ih =>
    rcases req with ⟨rc, eid, ea⟩
    simp only [runRedeems, verify_code_of_used hf hused, ih, List.map_cons]

theorem countP_isOk_runRedeems (s : Store) (raw : String)
    (reqs : List (RedeemClock × Nat × String)) :
    ((runRedeems s raw reqs).1.countP isOk) ≤ 1 := by
  induction reqs generalizing s with
  | nil => simp [runRedeems]
  | cons req rest ih =>
    rcases req with ⟨rc, eid, ea⟩
    rcases hv : verify_code s raw rc eid ea with ⟨out, s1⟩
    cases out with
    | error e =>
      have hs1 : s1 = s := verify_code_error_state hv
      simp only [runRedeems, hv, List.countP_cons]
      have : isOk (.error e) = false := rfl
      rw [hs1]
      simpa [this] using ih s
    | ok r =>
      obtain ⟨c0, hf0, hu0, _, _, hs⟩ := verify_code_ok_inversion hv
      have hfind1 : s1.access_codes.find?
          (fun c => c.code == normalize_code raw) =
          some { c0 with used := true, used_at := some rc.tUsed } := by
        rw [hs]
        have hpf : ∀ a : AccessCode,
            ((({ a with used := true, used_at := some rc.tUsed } :
              AccessCode).code == normalize_code raw)) =
            (a.code == normalize_code raw) := fun a => rfl
        simp only
        rw [find?_updateFirst _ hpf, hf0, Option.map_some']
      have hall := runRedeems_all_used s1 raw hfind1 rfl rest
      simp only [runRedeems, hv, hall, List.countP_cons]
      have h0 : (rest.map
          (fun _ : RedeemClock × Nat × String =>
            (.error .codeAlreadyUsed :
              Except ApiError VerifyCodeResponse))).countP isOk = 0 := by
        rw [List.countP_map]
        simp [isOk, Function.comp]
      simp [h0, isOk]

/-- C2: a successful redemption marks the code `used = true` with
`used_at` stamped from the request clock; a code already marked used
makes any redemption attempt fail with `AlreadyUsed`, leaving the store
unchanged; `used = true` is never reset by any modelled operation
(given fresh uuids and unique code ids); and any sequence of redemption
calls for one code succeeds at most once. -/
theorem redeem_at_most_once (s : Store) (raw : String) (rc : RedeemClock)
    (eid : Nat) (ea : String) :
    (∀ r s', verify_code s raw rc eid ea = (.ok r, s') →
      ∃ cd, s.access_codes.find?
          (fun c => c.code == normalize_code raw) = some cd ∧
        cd.used = false ∧
        s'.access_codes.find?
          (fun c => c.code == normalize_code raw) =
          some { cd with used := true, used_at := some rc.tUsed }) ∧
    (∀ cd, s.access_codes.find?
        (fun c => c.code == normalize_code raw) = some cd →
      cd.used = true →
      verify_code s raw rc eid ea = (.error .codeAlreadyUsed, s)) ∧
    (∀ op, freshFor op s → (s.access_codes.map AccessCode.id).Nodup →
      ∀ cd ∈ s.access_codes, cd.used = true →
        ∀ cd' ∈ (applyOp s op).access_codes, cd'.id = cd.id →
          cd'.used = true) ∧
    (∀ reqs, ((runRedeems s raw reqs).1.countP isOk) ≤ 1) := by
  refine ⟨fun r s' h => ?_, fun cd hf hu => verify_code_of_used hf hu,
    fun op hfresh hids => used_monotone s op hfresh hids,
    fun reqs => countP_isOk_runRedeems s raw reqs⟩
  obtain ⟨cd, hf, hu, _, _, hs⟩ := verify_code_ok_inversion h
  refine ⟨cd, hf, hu, ?_⟩
  rw [hs]
  have hpf : ∀ a : AccessCode,
      ((({ a with used := true, used_at := some rc.tUsed } :
        AccessCode).code == normalize_code raw)) =
      (a.code == normalize_code raw) := fun a => rfl
  simp only
  rw [find?_updateFirst _ hpf, hf, Option.map_some']

/-- Access code for the C2 witness. -/
def w2code : AccessCode :=
  { id := 1, code := "W2CODE12", expires_at := 100, used := false,
    used_at := none, created_at := 0, created_by := "admin@botsmith.com" }

/-- Store holding the unused C2 witness code. -/
def w2store : Store :=
  { access_codes := [w2code], temp_emails := [], email_messages := [] }

/-- Store holding the C2 witness code already redeemed. -/
def w2used : Store :=
  { access_codes := [{ w2code with used := true, used_at := some 3 }],
    temp_emails := [], email_messages := [] }

/-- Clock for the C2 witness. -/
def w2rc : RedeemClock :=
  { tCheck := 5, tUsed := 5, tMbox := 5, tRem := 5, tTok := 5 }

theorem redeem_at_most_once_witness :
    (∃ cd, w2store.access_codes.find?
        (fun c => c.code == normalize_code "W2CODE12") = some cd ∧
      cd.used = false ∧
      (verify_code w2store "W2CODE12" w2rc 7
          "w2@tempmail.local").2.access_codes.find?
        (fun c => c.code == normalize_code "W2CODE12") =
        some { cd with used := true, used_at := some w2rc.tUsed }) ∧
    verify_code w2used "W2CODE12" w2rc 7 "w2@tempmail.local" =
      (.error .codeAlreadyUsed, w2used) ∧
    ({ w2code with used := true, used_at := some 3 } :
      AccessCode).used = true ∧
    (runRedeems w2store "W2CODE12"
      [(w2rc, 7, "a@tempmail.local"),
       (w2rc, 8, "b@tempmail.local")]).1.countP isOk ≤ 1 := by
  have h := redeem_at_most_once w2store "W2CODE12" w2rc 7 "w2@tempmail.local"
  have h' := redeem_at_most_once w2used "W2CODE12" w2rc 7 "w2@tempmail.local"
  refine ⟨?_, ?_, ?_, h.2.2.2 _⟩
  · exact h.1
      { token := { sub := 1, email := "w2@tempmail.local",
                   role := "user", exp := 100 },
        expires_at := 100, email_address := "w2@tempmail.local" }
      (verify_code w2store "W2CODE12" w2rc 7 "w2@tempmail.local").2
      (by decide)
  · exact h'.2.1 { w2code with used := true, used_at := some 3 }
      (by decide) rfl
  · exact h'.2.2.1 (Op.redeem "W2CODE12" w2rc 8 "x@tempmail.local")
      trivial (by decide) { w2code with used := true, used_at := some 3 }
      (by decide) rfl { w2code with used := true, used_at := some 3 }
      (by decide) rfl

/-! ### C3 — the redemption write is not conditional on `used` -/

/-- First phase of a redemption request: the `find_one` read
(line 166), taken against the store state at read time. -/
def redeemRead (s : Store) (code : String) : Option AccessCode :=
  s.access_codes.find? (fun c => c.code == code)

/-- Second phase of a redemption request: the checks of lines 172-178
evaluated on the snapshot returned by the earlier read, followed by the
unconditional `update_one({"code": code}, {"$set": ...})` of line 181
applied to the store state at write time. -/
def redeemCommit (s : Store) (snapshot : Option AccessCode)
    (code : String) (rc : RedeemClock) : Except ApiError Unit × Store :=
  match snapshot with
  | none => (.error .invalidCode, s)
  | some cd =>
    if cd.used then (.error .codeAlreadyUsed, s)
    else if cd.expires_at < rc.tCheck then (.error .codeExpired, s)
    else
      let newCodes := updateFirst (fun c => c.code == code)
        (fun c => { c with used := true, used_at := some rc.tUsed })
        s.access_codes
      (.ok (), { s with access_codes := newCodes })

/-- Modelled from the spec: the enforcement mechanism the spec
prescribes but the source lacks — a single conditional update (set
`used = true` only where `used = false` currently holds), with a
no-match reported as `AlreadyUsed`.  The source instead issues the
unconditional write of `redeemCommit`. -/
def redeemCommitConditional (s : Store) (snapshot : Option AccessCode)
    (code : String) (rc : RedeemClock) : Except ApiError Unit × Store :=
  match snapshot with
  | none => (.error .invalidCode, s)
  | some cd =>
    if cd.used then (.error .codeAlreadyUsed, s)
    else if cd.expires_at < rc.tCheck then (.error .codeExpired, s)
    else if s.access_codes.any (fun c => c.code == code && !c.used) then
      let newCodes := updateFirst (fun c => c.code == code && !c.used)
        (fun c => { c with used := true, used_at := some rc.tUsed })
        s.access_codes
      (.ok (), { s with access_codes := newCodes })
    else (.error .codeAlreadyUsed, s)

/-- The access code both racing requests target. -/
def c3code : AccessCode :=
  { id := 1, code := "RACE1234", expires_at := 100, used := false,
    used_at := none, created_at := 0,
    created_by := "admin@botsmith.com" }

/-- Store holding the code both racing requests target. -/
def c3store : Store :=
  { access_codes := [c3code], temp_emails := [], email_messages := [] }

/-- Clock shared by both racing redemption requests. -/
def c3rc : RedeemClock :=
  { tCheck := 5, tUsed := 5, tMbox := 5, tRem := 5, tTok := 5 }

/-- C3: the source's redemption is a separate read followed by an
unconditional write: when two requests both perform their read before
either write, both commits succeed, so two sessions are minted from one
code — while the spec's conditional write yields one success and one
`AlreadyUsed`.  The last conjunct checks that the two-phase model is
exactly the redemption handler's effect on the code collection. -/
theorem redeem_not_atomic_race :
    ((redeemCommit c3store (redeemRead c3store "RACE1234") "RACE1234"
        c3rc).1 = .ok () ∧
      (redeemCommit
        (redeemCommit c3store (redeemRead c3store "RACE1234") "RACE1234"
          c3rc).2
        (redeemRead c3store "RACE1234") "RACE1234" c3rc).1 = .ok ()) ∧
    ((redeemCommitConditional c3store (redeemRead c3store "RACE1234")
        "RACE1234" c3rc).1 = .ok () ∧
      (redeemCommitConditional
        (redeemCommitConditional c3store (redeemRead c3store "RACE1234")
          "RACE1234" c3rc).2
        (redeemRead c3store "RACE1234") "RACE1234" c3rc).1 =
        .error .codeAlreadyUsed) ∧
    (∀ (s : Store) (raw : String) (rc : RedeemClock) (eid : Nat)
        (ea : String),
      Except.map (fun _ => ()) (verify_code s raw rc eid ea).1 =
        (redeemCommit s (redeemRead s (normalize_code raw))
          (normalize_code raw) rc).1 ∧
      (verify_code s raw rc eid ea).2.access_codes =
        (redeemCommit s (redeemRead s (normalize_code raw))
          (normalize_code raw) rc).2.access_codes) := by
  refine ⟨by decide, by decide, fun s raw rc eid ea => ?_⟩
  cases hf : s.access_codes.find? (fun c => c.code == normalize_code raw) with
  | none =>
    rw [verify_code_of_find_none hf]
    simp [redeemCommit, redeemRead, hf, Except.map]
  | some cd =>
    by_cases hu : cd.used
    · rw [verify_code_of_used hf hu]
      simp [redeemCommit, redeemRead, hf, hu, Except.map]
    · have hu' : cd.used = false := by simpa using hu
      by_cases he : cd.expires_at < rc.tCheck
      · rw [verify_code_of_expired hf hu' he]
        simp [redeemCommit, redeemRead, hf, hu', he, Except.map]
      · rw [verify_code_of_live hf hu' he]
        simp [redeemCommit, redeemRead, hf, hu', he, Except.map]

/-! ### C6 — message listing: scope, order, truncation -/

/-- Addresses of all mailboxes owned by a session. -/
def sessionAddrs (user : Token) (s : Store) : List String :=
  (s.temp_emails.filter (fun e => e.session_id == user.sub)).map
    (fun e => e.email_address)

/-- The single mailbox of the C6 counterexample session. -/
def c6mbox : TempEmail :=
  { id := 1, email_address := "inbox1@tempmail.local", session_id := 1,
    created_at := 0, expires_at := 1000 }

/-- The `i`-th message of the C6 counterexample, received at instant `i`
and addressed to the session's mailbox. -/
def c6msg (i : Nat) : EmailMessage :=
  { id := i, to_email := "inbox1@tempmail.local",
    from_email := "s@example.com", subject := "hello", body := "text",
    received_at := (i : Int), is_read := false }

/-- Store with 101 messages addressed to the session's one mailbox. -/
def c6store : Store :=
  { access_codes := [], temp_emails := [c6mbox],
    email_messages := (List.range 101).map c6msg }

/-- The session owning the C6 counterexample mailbox. -/
def c6user : Token :=
  { sub := 1, email := "inbox1@tempmail.local", role := "user",
    exp := 1000 }

/-- Counterexample for C6: with 101 stored messages all addressed to the
session's mailbox, `GET /messages` returns only 100 of them: the oldest
message is addressed to a mailbox of the session yet missing from the
result. -/
theorem list_messages_omits_message :
    c6msg 0 ∈ c6store.email_messages ∧
    (c6msg 0).to_email ∈ sessionAddrs c6user c6store ∧
    c6msg 0 ∉ get_messages c6user c6store ∧
    (get_messages c6user c6store).length = 100 ∧
    c6store.email_messages.length = 101 := by decide

/-- C6 amended: provided the session owns at most 100 mailboxes and at
most 100 stored messages are addressed to them, `GET /messages` returns
exactly the messages addressed to the session's mailboxes (and only
those), sorted by received time descending — strictly descending when
received times are pairwise distinct.  Beyond those caps entries are
silently omitted. -/
theorem list_messages_amended (user : Token) (s : Store)
    (hmb : (s.temp_emails.filter
      (fun e => e.session_id == user.sub)).length ≤ 100)
    (hmsg : (s.email_messages.filter
      (fun m => (sessionAddrs user s).contains m.to_email)).length ≤ 100) :
    (get_messages user s).Perm
      (s.email_messages.filter
        (fun m => (sessionAddrs user s).contains m.to_email)) ∧
    List.Pairwise recvGe (get_messages user s) ∧
    (List.Pairwise (fun a b : EmailMessage =>
        a.received_at ≠ b.received_at) s.email_messages →
      List.Pairwise (fun a b : EmailMessage =>
        b.received_at < a.received_at) (get_messages user s)) := by
  have htake : (s.temp_emails.filter
      (fun e => e.session_id == user.sub)).take 100 =
      s.temp_emails.filter (fun e => e.session_id == user.sub) :=
    List.take_of_length_le hmb
  have hg : get_messages user s =
      List.insertionSort recvGe
        (s.email_messages.filter
          (fun m => (sessionAddrs user s).contains m.to_email)) := by
    simp only [get_messages, htake, sessionAddrs]
    refine List.take_of_length_le ?_
    rw [(List.perm_insertionSort recvGe _).length_eq]
    simpa [sessionAddrs] using hmsg
  have hperm : (get_messages user s).Perm
      (s.email_messages.filter
        (fun m => (sessionAddrs user s).contains m.to_email)) := by
    rw [hg]; exact List.perm_insertionSort recvGe _
  have hsorted : List.Pairwise recvGe (get_messages user s) := by
    rw [hg]; exact List.sorted_insertionSort recvGe _
  refine ⟨hperm, hsorted, fun hdist => ?_⟩
  have hdist1 : List.Pairwise (fun a b : EmailMessage =>
      a.received_at ≠ b.received_at)
      (s.email_messages.filter
        (fun m => (sessionAddrs user s).contains m.to_email)) :=
    List.Pairwise.sublist (List.filter_sublist _) hdist
  have hdist2 : List.Pairwise (fun a b : EmailMessage =>
      a.received_at ≠ b.received_at) (get_messages user s) :=
    (hperm.pairwise_iff (fun hxy => hxy.symm)).mpr hdist1
  exact (hsorted.and hdist2).imp
    (fun hab => lt_of_le_of_ne hab.1 hab.2.symm)

/-- Mailbox of the C6 witness session. -/
def w6box : TempEmail :=
  { id := 1, email_address := "w6@tempmail.local", session_id := 1,
    created_at := 0, expires_at := 1000 }

/-- Older message to the C6 witness session. -/
def w6m1 : EmailMessage :=
  { id := 1, to_email := "w6@tempmail.local", from_email := "f@example.com",
    subject := "first", body := "text", received_at := 3, is_read := false }

/-- Newer message to the C6 witness session. -/
def w6m2 : EmailMessage :=
  { id := 2, to_email := "w6@tempmail.local", from_email := "f@example.com",
    subject := "second", body := "text", received_at := 5, is_read := false }

/-- Message to a mailbox outside the C6 witness session. -/
def w6other : EmailMessage :=
  { id := 3, to_email := "other@tempmail.local",
    from_email := "f@example.com", subject := "noise", body := "text",
    received_at := 4, is_read := false }

/-- Store for the C6 witness. -/
def w6store : Store :=
  { access_codes := [], temp_emails := [w6box],
    email_messages := [w6m1, w6other, w6m2] }

/-- The C6 witness session. -/
def w6user : Token :=
  { sub := 1, email := "w6@tempmail.local", role := "user", exp := 1000 }

theorem list_messages_amended_witness :
    (get_messages w6user w6store).Perm [w6m1, w6m2] ∧
    List.Pairwise (fun a b : EmailMessage =>
      b.received_at < a.received_at) (get_messages w6user w6store) := by
  have h := list_messages_amended w6user w6store (by decide) (by decide)
  have hf : w6store.email_messages.filter
      (fun m => (sessionAddrs w6user w6store).contains m.to_email) =
      [w6m1, w6m2] := by decide
  refine ⟨?_, h.2.2 (by decide)⟩
  have := h.1
  rw [hf] at this
  exact this

end TempMail
